import Mathlib

/-!
Shallow embedding of `make_table.py`, a single-file daily market-report
generator: it fetches a ticker list, keeps tickers with a recent
earnings-related headline, computes the daily percentage change for each,
sorts descending, truncates, and renders an HTML table written to two files.

Modelling conventions:
* Python strings are `List Char` (`PyStr`);
* Python floats are `ℚ`;
* every external call (HTTP fetch through the REST client) is an input of
  the embedding, an `Except Unit` value supplied by an environment: `.error`
  models the call raising, `.ok` models the data it returned;
* `None` is `Option.none`; a fallible field is an `Option`.
-/

/-- A Python string, modelled as its list of characters. -/
abbrev PyStr := List Char

/-- Python `str.lower`, applied per character (ASCII case mapping). -/
def pyLower (s : PyStr) : PyStr := s.map Char.toLower

/-- Python `str.upper`, applied per character (ASCII case mapping). -/
def pyUpper (s : PyStr) : PyStr := s.map Char.toUpper

/-- Python `str.strip()`: drop leading and trailing whitespace. -/
def pyStrip (s : PyStr) : PyStr :=
  ((s.dropWhile Char.isWhitespace).reverse.dropWhile Char.isWhitespace).reverse

/-- Keyword tuple `EARNINGS_KEYWORDS` from the source. -/
def EARNINGS_KEYWORDS : List PyStr :=
  [("earnings").data, ("reports").data, ("eps").data, ("revenue").data,
   ("beats").data, ("misses").data, ("profit").data, ("guidance").data,
   ("quarter").data, ("q1").data, ("q2").data, ("q3").data, ("q4").data]

/-- Constant `MAX_ROWS = 12` from the source. -/
def MAX_ROWS : Nat := 12

/-- Constant `NEWS_PER_TICKER = 2` from the source. -/
def NEWS_PER_TICKER : Nat := 2

/-- Source `looks_like_earnings`: lowercase the title and test whether any
keyword occurs in it as a substring (Python `k in t`). -/
def looks_like_earnings (title : PyStr) : Bool :=
  let t := pyLower title
  EARNINGS_KEYWORDS.any (fun k => decide (k <:+: t))

/-- Normalisation performed in the loop of `get_sp500_tickers`:
`t.strip().upper()` followed by `t.replace(".", "-")`. -/
def cleanTicker (t : PyStr) : PyStr :=
  (pyUpper (pyStrip t)).map (fun c => if c = '.' then '-' else c)

/-- Source `get_sp500_tickers`: read the Symbol column of the scraped index
table (the fetch may raise, and nothing catches it), then normalise each
symbol in order.  The argument is the outcome of `pd.read_html` narrowed to
the Symbol column as strings. -/
def get_sp500_tickers (fetched : Except Unit (List PyStr)) :
    Except Unit (List PyStr) :=
  fetched.map (fun tickers => tickers.map cleanTicker)

/-- One aggregate price bar as used by the source: only `open` and `close`
are read, either may be absent (`None`). -/
structure Bar where
  «open» : Option ℚ
  close : Option ℚ
deriving DecidableEq

/-- Source `safe_daily_change_pct`.  The argument is the outcome of
`client.get_aggs`: `.error` if it raised, `.ok none` if it returned a falsy
value (turned into `[]` by `list(bars) if bars else []`), `.ok (some l)`
otherwise.  Mirrors `if not o or o <= 0 or c is None: return None` and the
final `(c - o) / o * 100.0`. -/
def safe_daily_change_pct (fetched : Except Unit (Option (List Bar))) :
    Option ℚ :=
  match fetched with
  | .error _ => none
  | .ok aggs =>
    match aggs.getD [] with
    | [] => none
    | b :: _ =>
      match b.«open» with
      | none => none
      | some o =>
        if o = 0 then none
        else if o ≤ 0 then none
        else
          match b.close with
          | none => none
          | some c => some ((c - o) / o * 100)

/-- Source `safe_company_name`: the fetched `name or ticker`, with the
ticker also used when the details call raised. -/
def safe_company_name (ticker : PyStr) (fetched : Except Unit (Option PyStr)) :
    PyStr :=
  match fetched with
  | .error _ => ticker
  | .ok name? =>
    match name? with
    | none => ticker
    | some n => if n = [] then ticker else n

/-- One news item as used by the source: only `title` is read and it may be
absent. -/
structure NewsItem where
  title : Option PyStr
deriving DecidableEq

/-- Modelled from the spec: the external news-listing lookup
(`client.list_ticker_news` with `order="desc"`, `sort="published_utc"`) is
not part of this repository; per the spec it returns the most recently
published items first, at most `limit` of them.  The environment supplies
the ticker's full feed in that order and the lookup truncates it. -/
def list_ticker_news (feed : List NewsItem) (limit : Nat) : List NewsItem :=
  feed.take limit

/-- The scanning loop of `latest_earnings_headline`: first title passing
`looks_like_earnings` (with missing titles read as `""`), else `None`. -/
def firstEarningsTitle : List NewsItem → Option PyStr
  | [] => none
  | item :: rest =>
    let title := item.title.getD []
    if looks_like_earnings title then some title else firstEarningsTitle rest

/-- Source `latest_earnings_headline`: on a raised news call return `None`,
otherwise scan the (at most `NEWS_PER_TICKER`) returned items. -/
def latest_earnings_headline (fetched : Except Unit (List NewsItem)) :
    Option PyStr :=
  match fetched with
  | .error _ => none
  | .ok feed => firstEarningsTitle (list_ticker_news feed NEWS_PER_TICKER)

/-- Round half to even: the rounding applied by Python float formatting. -/
def rhe (x : ℚ) : ℤ :=
  let f : ℤ := ⌊x⌋
  let r : ℚ := x - f
  if r < 1/2 then f
  else if 1/2 < r then f + 1
  else if f % 2 = 0 then f else f + 1

/-- Base-10 digits of a natural number, most significant first. -/
def natDigits (n : Nat) : List Char :=
  if _h : n < 10 then [Nat.digitChar n]
  else natDigits (n / 10) ++ [Nat.digitChar (n % 10)]
decreasing_by exact Nat.div_lt_self (by omega) (by omega)

/-- Python fixed-point formatting with one decimal digit (format spec
`.1f`): round the value half-to-even at one decimal, print a minus sign for
a negative input, the integer digits, a point, and exactly one fractional
digit. -/
def fmtFixed1 (x : ℚ) : PyStr :=
  let n : ℤ := rhe (x * 10)
  let m : Nat := n.natAbs
  (if x < 0 then ['-'] else []) ++ natDigits (m / 10) ++ ['.', Nat.digitChar (m % 10)]

/-- Source `fmt_pct` (inner function of `render_html`): `None` renders as
`""`; otherwise a `"+"` sign exactly when the value is positive, then the
value at one decimal digit, then `"%"`. -/
def fmt_pct (x : Option ℚ) : PyStr :=
  match x with
  | none => []
  | some v => (if 0 < v then ['+'] else []) ++ fmtFixed1 v ++ ['%']

/-- A fully-computed report row, as built by `main`. -/
structure Row where
  company : PyStr
  ticker : PyStr
  change : ℚ
  note : PyStr
deriving DecidableEq

/-- The inline stylesheet string `css` of `render_html`. -/
def pageCss : PyStr :=
  ("\n    :root \x7b --text:#111827; --line:#e5e7eb; --bg:#ffffff; \x7d\n    body \x7b font-family: ui-sans-serif, system-ui, -apple-system, Segoe UI, Roboto, Helvetica, Arial;\n           background: var(--bg); color: var(--text); margin: 24px; \x7d\n    .wrap \x7b max-width: 1100px; \x7d\n    table \x7b width: 100%; border-collapse: collapse; table-layout: fixed; \x7d\n    thead th \x7b text-align: left; font-weight: 700; font-size: 14px; padding: 14px 10px;\n               border-bottom: 1px solid var(--line); \x7d\n    tbody td \x7b padding: 18px 10px; border-bottom: 1px solid #f3f4f6; vertical-align: top; font-size: 14px; \x7d\n    tbody tr:last-child td \x7b border-bottom: 1px solid var(--line); \x7d\n    .col-company \x7b width: 33%; \x7d\n    .col-ticker \x7b width: 12%; \x7d\n    .col-change \x7b width: 12%; \x7d\n    .col-notes \x7b width: 43%; \x7d\n    ").data

/-- One `<tr>` line of the body loop of `render_html`. -/
def renderRow (r : Row) : PyStr :=
  ("    <tr><td class=\x27col-company\x27>").data ++ r.company
    ++ ("</td><td class=\x27col-ticker\x27>").data ++ r.ticker
    ++ ("</td><td class=\x27col-change\x27>").data ++ fmt_pct (some r.change)
    ++ ("</td><td class=\x27col-notes\x27>").data ++ r.note
    ++ ("</td></tr>").data

/-- Source `render_html`: a pure function of the rows and the date string,
concatenating the fixed head (title and stylesheet), the newline-joined body
rows in the order given, and the fixed tail. -/
def render_html (rows : List Row) (date_str : PyStr) : PyStr :=
  let title := ("Notes (").data ++ date_str ++ (")").data
  let head :=
    ("<!doctype html>\n<html>\n<head>\n<meta charset=\"utf-8\">\n<meta name=\"viewport\" content=\"width=device-width, initial-scale=1\">\n<title>").data
      ++ title
      ++ ("</title>\n<style>").data ++ pageCss
      ++ ("</style>\n</head>\n<body>\n<div class=\"wrap\">\n<table>\n  <thead>\n    <tr>\n      <th class=\"col-company\">Company</th>\n      <th class=\"col-ticker\">Ticker</th>\n      <th class=\"col-change\">Change (%)</th>\n      <th class=\"col-notes\">").data
      ++ title
      ++ ("</th>\n    </tr>\n  </thead>\n  <tbody>\n").data
  let body_rows := rows.map renderRow
  let tail := ("\n  </tbody>\n</table>\n</div>\n</body>\n</html>\n").data
  head ++ List.intercalate (("\n").data) body_rows ++ tail

/-- Comparison under which `main` sorts: Python stable sort with key
`x["change"]` and `reverse=True` is a stable sort by change descending. -/
def rowLE (a b : Row) : Bool := decide (b.change ≤ a.change)

/-- The selection step of `main`: `matches.sort(key=..., reverse=True)`
followed by `matches[:MAX_ROWS]`. -/
def selectRows (ms : List Row) : List Row :=
  (ms.mergeSort rowLE).take MAX_ROWS

/-- Per-ticker external data: the outcomes the three REST calls would have
for this ticker during the run. -/
structure TickerData where
  newsFeed : Except Unit (List NewsItem)
  dailyAggs : Except Unit (Option (List Bar))
  details : Except Unit (Option PyStr)

/-- The candidate loop of `main`: skip a ticker whose headline is falsy
(`if not headline: continue`), skip a ticker with no computable change
(`if chg is None: continue`), otherwise build the row. -/
def buildMatches (env : PyStr → TickerData) : List PyStr → List Row
  | [] => []
  | t :: ts =>
    match latest_earnings_headline (env t).newsFeed with
    | none => buildMatches env ts
    | some headline =>
      if headline = [] then buildMatches env ts
      else
        match safe_daily_change_pct (env t).dailyAggs with
        | none => buildMatches env ts
        | some chg =>
          { company := safe_company_name t (env t).details
            ticker := t
            change := chg
            note := headline } :: buildMatches env ts

/-- How a run of the program can fail. -/
inductive PyError where
  | missingKey : PyStr → PyError
  | uncaught : PyError
deriving DecidableEq

/-- The two files written at the end of `main`: `docs/index.html` and the
dated archive file. -/
structure Outputs where
  indexHtml : PyStr
  archiveHtml : PyStr
deriving DecidableEq

/-- All external data a run consumes: the index-constituent scrape and the
per-ticker call outcomes. -/
structure WorldEnv where
  sp500Fetch : Except Unit (List PyStr)
  perTicker : PyStr → TickerData

/-- Startup credential check: `os.environ.get("POLYGON_API_KEY", "").strip()`
followed by `if not API_KEY: raise RuntimeError(...)`. -/
def checkApiKey (envVar : Option PyStr) : Except PyStr PyStr :=
  let key := pyStrip (envVar.getD [])
  if key = [] then .error (("Missing POLYGON_API_KEY GitHub secret").data)
  else .ok key

/-- Source `main` after startup: fetch tickers (an exception here is
uncaught and aborts the run with no output), build the matches, sort and
truncate, render once, and write the same HTML to both files. -/
def runMain (env : WorldEnv) (date_str : PyStr) : Except PyError Outputs :=
  match get_sp500_tickers env.sp500Fetch with
  | .error _ => .error .uncaught
  | .ok tickers =>
    let html := render_html (selectRows (buildMatches env.perTicker tickers)) date_str
    .ok { indexHtml := html, archiveHtml := html }

/-- The whole program: module-level credential check, then `main`. -/
def runProgram (apiKeyVar : Option PyStr) (env : WorldEnv) (date_str : PyStr) :
    Except PyError Outputs :=
  match checkApiKey apiKeyVar with
  | .error msg => .error (.missingKey msg)
  | .ok _ => runMain env date_str

/-! ## Helper lemmas -/

theorem mem_selectRows {r : Row} {l : List Row} (h : r ∈ selectRows l) :
    r ∈ l :=
  List.mem_mergeSort.mp (List.take_subset _ _ h)

theorem mem_buildMatches {env : PyStr → TickerData} {r : Row}
    {ts : List PyStr} (h : r ∈ buildMatches env ts) :
    ∃ t ∈ ts, ∃ headline chg,
      latest_earnings_headline (env t).newsFeed = some headline ∧
      headline ≠ [] ∧
      safe_daily_change_pct (env t).dailyAggs = some chg ∧
      r.ticker = t ∧ r.change = chg ∧ r.note = headline := by
  induction ts with
  | nil => simp [buildMatches] at h
  | cons t ts ih =>
    rw [buildMatches] at h
    cases hl : latest_earnings_headline (env t).newsFeed with
    | none =>
      simp only [hl] at h
      obtain ⟨t', ht', rest⟩ := ih h
      exact ⟨t', List.mem_cons_of_mem _ ht', rest⟩
    | some headline =>
      simp only [hl] at h
      by_cases he : headline = []
      · rw [if_pos he] at h
        obtain ⟨t', ht', rest⟩ := ih h
        exact ⟨t', List.mem_cons_of_mem _ ht', rest⟩
      · rw [if_neg he] at h
        cases hc : safe_daily_change_pct (env t).dailyAggs with
        | none =>
          simp only [hc] at h
          obtain ⟨t', ht', rest⟩ := ih h
          exact ⟨t', List.mem_cons_of_mem _ ht', rest⟩
        | some chg =>
          simp only [hc] at h
          rcases List.mem_cons.mp h with hr | hr
          · subst hr
            exact ⟨t, List.mem_cons_self _ _, headline, chg, hl, he, hc,
              rfl, rfl, rfl⟩
          · obtain ⟨t', ht', rest⟩ := ih hr
            exact ⟨t', List.mem_cons_of_mem _ ht', rest⟩

theorem rowLE_trans (a b c : Row) : rowLE a b → rowLE b c → rowLE a c := by
  simp only [rowLE, decide_eq_true_eq]
  exact fun h1 h2 => le_trans h2 h1

theorem rowLE_total (a b : Row) : rowLE a b || rowLE b a := by
  simp only [rowLE]
  rcases le_total a.change b.change with h | h <;> simp [h]

/-! ## C1: metric computation and exclusion of null changes -/

/-- C1: `safe_daily_change_pct` returns `(close - open) / open * 100` when
the fetch succeeds with a first bar whose open is positive and close is
present; it returns `none` when the fetch raises, no bar comes back, the
open is absent or non-positive, or the close is absent; and a ticker whose
change is `none` contributes no row to the final report. -/
theorem safe_daily_change_pct_spec :
    (∀ (aggs : Option (List Bar)) (b : Bar) (rest : List Bar) (o c : ℚ),
        aggs.getD [] = b :: rest → b.«open» = some o → 0 < o →
        b.close = some c →
        safe_daily_change_pct (.ok aggs) = some ((c - o) / o * 100)) ∧
    (∀ e, safe_daily_change_pct (.error e) = none) ∧
    safe_daily_change_pct (.ok none) = none ∧
    safe_daily_change_pct (.ok (some [])) = none ∧
    (∀ (aggs : Option (List Bar)) (b : Bar) (rest : List Bar),
        aggs.getD [] = b :: rest →
        (b.«open» = none ∨ (∃ o, b.«open» = some o ∧ o ≤ 0) ∨
          b.close = none) →
        safe_daily_change_pct (.ok aggs) = none) ∧
    (∀ (env : PyStr → TickerData) (tickers : List PyStr) (t : PyStr),
        safe_daily_change_pct (env t).dailyAggs = none →
        ∀ r ∈ selectRows (buildMatches env tickers), r.ticker ≠ t) := by
  refine ⟨?_, ?_, rfl, rfl, ?_, ?_⟩
  · intro aggs b rest o c h1 h2 h3 h4
    simp only [safe_daily_change_pct, h1, h2, h4]
    rw [if_neg (by intro h; exact absurd h (ne_of_gt h3)),
      if_neg (by intro h; exact absurd h (not_le.mpr h3))]
  · intro e
    simp [safe_daily_change_pct]
  · intro aggs b rest h1 h2
    simp only [safe_daily_change_pct, h1]
    rcases h2 with h | ⟨o, ho, hle⟩ | h
    · simp only [h]
    · simp only [ho]
      by_cases h0 : o = 0
      · rw [if_pos h0]
      · rw [if_neg h0, if_pos hle]
    · cases hopen : b.«open» with
      | none => rfl
      | some o =>
        simp only [hopen]
        by_cases h0 : o = 0
        · rw [if_pos h0]
        · by_cases hle : o ≤ 0
          · rw [if_neg h0, if_pos hle]
          · rw [if_neg h0, if_neg hle, h]
  · intro env tickers t hnone r hr hticker
    obtain ⟨t', _, headline, chg, _, _, hc, hrt, _, _⟩ :=
      mem_buildMatches (mem_selectRows hr)
    rw [hticker] at hrt
    subst hrt
    rw [hnone] at hc
    exact Option.noConfusion hc

/-- C1 witness: concrete instances of the characterisation. -/
theorem safe_daily_change_pct_spec_witness :
    safe_daily_change_pct
        (.ok (some [{ «open» := some 100, close := some 110 }])) =
      some ((110 - 100) / 100 * 100) ∧
    safe_daily_change_pct
        (.ok (some [{ «open» := some 0, close := some 110 }])) = none :=
  ⟨safe_daily_change_pct_spec.1 (some [{ «open» := some 100, close := some 110 }])
      { «open» := some 100, close := some 110 } [] 100 110 rfl rfl (by norm_num) rfl,
    safe_daily_change_pct_spec.2.2.2.2.1
      (some [{ «open» := some 0, close := some 110 }])
      { «open» := some 0, close := some 110 } [] rfl
      (Or.inr (Or.inl ⟨0, rfl, le_refl 0⟩))⟩

/-! ## C2: the selector bounds, sorts, and is stable -/

/-- C2: the selector returns at most `MAX_ROWS` rows, sorted by change
descending, and rows with equal change keep their input order (the rows of
any given change value form a sublist of the input rows of that value). -/
theorem selectRows_spec (l : List Row) :
    (selectRows l).length ≤ MAX_ROWS ∧
    (selectRows l).Pairwise (fun a b => b.change ≤ a.change) ∧
    (∀ c : ℚ, List.Sublist
        ((selectRows l).filter (fun r => decide (r.change = c)))
        (l.filter (fun r => decide (r.change = c)))) := by
  refine ⟨List.length_take_le _ _, ?_, ?_⟩
  · have hs := List.sorted_mergeSort rowLE_trans rowLE_total l
    have hp : (l.mergeSort rowLE).Pairwise (fun a b => b.change ≤ a.change) :=
      hs.imp (fun h => by simpa [rowLE] using h)
    exact hp.sublist (List.take_sublist _ _)
  · intro c
    have hfi : (l.filter (fun r => decide (r.change = c))).Pairwise
        (fun a b => rowLE a b = true) := by
      apply List.pairwise_of_forall_mem_list
      intro a ha b hb
      have ha' := (List.mem_filter.mp ha).2
      have hb' := (List.mem_filter.mp hb).2
      simp only [decide_eq_true_eq] at ha' hb'
      simp [rowLE, ha', hb']
    have hsub : List.Sublist (l.filter (fun r => decide (r.change = c)))
        (l.mergeSort rowLE) :=
      List.sublist_mergeSort rowLE_trans rowLE_total hfi (List.filter_sublist _)
    have heq : (l.filter (fun r => decide (r.change = c))).filter
        (fun r => decide (r.change = c)) = l.filter (fun r => decide (r.change = c)) :=
      List.filter_eq_self.mpr (fun a ha => (List.mem_filter.mp ha).2)
    have hsub2 : List.Sublist (l.filter (fun r => decide (r.change = c)))
        ((l.mergeSort rowLE).filter (fun r => decide (r.change = c))) := by
      have h2 := hsub.filter (fun r => decide (r.change = c))
      rwa [heq] at h2
    have hperm : List.Perm
        ((l.mergeSort rowLE).filter (fun r => decide (r.change = c)))
        (l.filter (fun r => decide (r.change = c))) :=
      (List.mergeSort_perm l rowLE).filter _
    have heq2 : l.filter (fun r => decide (r.change = c)) =
        (l.mergeSort rowLE).filter (fun r => decide (r.change = c)) :=
      hsub2.eq_of_length hperm.length_eq.symm
    rw [heq2, selectRows]
    exact (List.take_sublist _ _).filter _

/-! ## C3: percentage formatting -/

/-- Decode a digit string back to the natural number it denotes. -/
def digitsVal (s : List Char) : Nat :=
  s.foldl (fun a ch => a * 10 + (ch.toNat - 48)) 0

theorem digitChar_isDigit {d : Nat} (h : d < 10) :
    (Nat.digitChar d).isDigit = true := by
  interval_cases d <;> decide

theorem digitChar_toNat {d : Nat} (h : d < 10) :
    (Nat.digitChar d).toNat - 48 = d := by
  interval_cases d <;> decide

theorem natDigits_ne_nil (n : Nat) : natDigits n ≠ [] := by
  rw [natDigits]
  split <;> simp

theorem natDigits_all_digits (n : Nat) :
    ∀ ch ∈ natDigits n, ch.isDigit = true := by
  induction n using Nat.strong_induction_on with
  | _ n ih =>
    rw [natDigits]
    split
    · next h =>
      intro ch hch
      simp only [List.mem_singleton] at hch
      subst hch
      exact digitChar_isDigit h
    · next h =>
      intro ch hch
      rcases List.mem_append.mp hch with h1 | h1
      · exact ih (n / 10) (Nat.div_lt_self (by omega) (by omega)) ch h1
      · simp only [List.mem_singleton] at h1
        subst h1
        exact digitChar_isDigit (Nat.mod_lt _ (by omega))

theorem digitsVal_natDigits (n : Nat) : digitsVal (natDigits n) = n := by
  induction n using Nat.strong_induction_on with
  | _ n ih =>
    rw [natDigits]
    split
    · next h =>
      simp only [digitsVal, List.foldl_cons, List.foldl_nil, Nat.zero_mul,
        Nat.zero_add]
      exact digitChar_toNat h
    · next h =>
      have hd : digitsVal (natDigits (n / 10) ++ [Nat.digitChar (n % 10)]) =
          digitsVal (natDigits (n / 10)) * 10 +
            ((Nat.digitChar (n % 10)).toNat - 48) := by
        simp [digitsVal, List.foldl_append]
      rw [hd, ih (n / 10) (Nat.div_lt_self (by omega) (by omega)),
        digitChar_toNat (Nat.mod_lt _ (by omega))]
      omega

theorem rhe_err (y : ℚ) : |((rhe y : ℤ) : ℚ) - y| ≤ 1 / 2 := by
  have h1 : ((⌊y⌋ : ℤ) : ℚ) ≤ y := Int.floor_le y
  have h2 : y < ((⌊y⌋ : ℤ) : ℚ) + 1 := Int.lt_floor_add_one y
  rw [abs_sub_le_iff]
  simp only [rhe]
  split_ifs with ha hb hc <;> constructor <;> push_cast <;> linarith

theorem isDigit_ne_plus {ch : Char} (h : ch.isDigit = true) : ch ≠ '+' := by
  intro hc
  rw [hc] at h
  exact absurd h (by decide)

theorem fmtFixed1_head_ne_plus (x : ℚ) {ch : Char}
    (h : (fmtFixed1 x ++ ['%']).head? = some ch) : ch ≠ '+' := by
  rw [fmtFixed1] at h
  by_cases hneg : x < 0
  · rw [if_pos hneg] at h
    simp only [List.cons_append, List.head?_cons, Option.some.injEq] at h
    subst h
    decide
  · rw [if_neg hneg] at h
    obtain ⟨c0, tl, hnd⟩ :=
      List.exists_cons_of_ne_nil (natDigits_ne_nil ((rhe (x * 10)).natAbs / 10))
    rw [hnd] at h
    simp only [List.nil_append, List.cons_append, List.head?_cons,
      Option.some.injEq] at h
    subst h
    exact isDigit_ne_plus
      (natDigits_all_digits _ _ (hnd ▸ List.mem_cons_self _ _))

/-- C3: `fmt_pct` renders `None` as the empty string; its output starts with
`'+'` exactly when the input is positive; and apart from the sign characters
it prints digits, a point, and exactly one fractional digit, which together
decode to the input rounded (half to even) at one decimal place. -/
theorem fmt_pct_spec :
    fmt_pct none = [] ∧
    (∀ x : ℚ, ((fmt_pct (some x)).head? = some '+' ↔ 0 < x)) ∧
    (∀ x : ℚ, ∃ intDigits : List Char, ∃ d : Char,
        fmt_pct (some x) =
          (if 0 < x then ['+'] else []) ++ (if x < 0 then ['-'] else []) ++
            intDigits ++ ['.', d, '%'] ∧
        (∀ ch ∈ intDigits, ch.isDigit = true) ∧ d.isDigit = true ∧
        digitsVal intDigits * 10 + (d.toNat - 48) = (rhe (x * 10)).natAbs ∧
        |((rhe (x * 10) : ℤ) : ℚ) - x * 10| ≤ 1 / 2) := by
  refine ⟨rfl, ?_, ?_⟩
  · intro x
    by_cases hx : 0 < x
    · simp [fmt_pct, hx]
    · simp only [fmt_pct, if_neg hx, List.nil_append]
      constructor
      · intro h
        cases hh : (fmtFixed1 x ++ ['%']).head? with
        | none => rw [hh] at h; exact Option.noConfusion h
        | some ch =>
          rw [hh] at h
          injection h with h
          exact absurd h (fmtFixed1_head_ne_plus x hh)
      · intro h
        exact absurd h hx
  · intro x
    refine ⟨natDigits ((rhe (x * 10)).natAbs / 10),
      Nat.digitChar ((rhe (x * 10)).natAbs % 10), ?_, ?_, ?_, ?_, rhe_err _⟩
    · simp only [fmt_pct, fmtFixed1]
      simp [List.append_assoc]
    · exact natDigits_all_digits _
    · exact digitChar_isDigit (Nat.mod_lt _ (by omega))
    · rw [digitsVal_natDigits, digitChar_toNat (Nat.mod_lt _ (by omega))]
      omega

/-- C3 witness: concrete positive, negative, zero, and `None` inputs. -/
theorem fmt_pct_spec_witness :
    ((fmt_pct (some ((314159 : ℚ) / 100000))).head? = some '+') ∧
    (¬ (fmt_pct (some ((-5 : ℚ)))).head? = some '+') ∧
    (¬ (fmt_pct (some (0 : ℚ))).head? = some '+') :=
  ⟨(fmt_pct_spec.2.1 _).mpr (by norm_num),
    fun h => absurd ((fmt_pct_spec.2.1 _).mp h) (by norm_num),
    fun h => absurd ((fmt_pct_spec.2.1 _).mp h) (by norm_num)⟩

/-! ## C4: keyword matching -/

/-- Spec scenario title that must match (via "earnings", "reports", "q2"). -/
def sampleTitleA : PyStr := ("Company Reports Q2 Earnings").data

/-- Spec scenario title for the "beats" vs "beat" substring test. -/
def sampleTitleB : PyStr := ("Q3 results beat estimates").data

/-- C4: `looks_like_earnings` holds exactly when some keyword of
`EARNINGS_KEYWORDS` is a substring of the lowercased title; the spec's
positive scenario matches, and the keyword "beats" is not a substring of
"Q3 results beat estimates". -/
theorem looks_like_earnings_spec :
    (∀ title : PyStr,
        looks_like_earnings title = true ↔
          ∃ k ∈ EARNINGS_KEYWORDS, k <:+: pyLower title) ∧
    looks_like_earnings sampleTitleA = true ∧
    ¬ ((("beats").data : PyStr) <:+: pyLower sampleTitleB) := by
  refine ⟨?_, by decide, by decide⟩
  intro title
  simp [looks_like_earnings, List.any_eq_true]

/-- C4 witness: the characterisation applied at the spec's sample title. -/
theorem looks_like_earnings_spec_witness :
    ∃ k ∈ EARNINGS_KEYWORDS, k <:+: pyLower sampleTitleA :=
  (looks_like_earnings_spec.1 sampleTitleA).mp looks_like_earnings_spec.2.1

/-! ## C5: failure of the candidate-source call -/

/-- Environment in which the index-constituents fetch raises. -/
def sourceFailEnv : WorldEnv :=
  { sp500Fetch := .error ()
    perTicker := fun _ =>
      { newsFeed := .error (), dailyAggs := .error (), details := .error () } }

/-- C5 counterexample: when the candidate-source call fails, the source does
not return an empty candidate set; the exception propagates and the run
aborts producing no report at all. -/
theorem get_sp500_failure_cex :
    get_sp500_tickers (.error ()) ≠ .ok [] ∧
    runMain sourceFailEnv (("2024-01-02").data) = .error .uncaught := by
  constructor
  · intro h
    simp [get_sp500_tickers, Except.map] at h
  · rfl

/-- C5 amended: a failed candidate-source call propagates:
`get_sp500_tickers` forwards the error unchanged and `main` aborts with an
uncaught exception, writing no output. -/
theorem get_sp500_failure_aborts (env : WorldEnv) (d : PyStr)
    (h : env.sp500Fetch = Except.error ()) :
    get_sp500_tickers env.sp500Fetch = Except.error () ∧
    runMain env d = Except.error PyError.uncaught := by
  constructor
  · rw [h]
    rfl
  · simp [runMain, h, get_sp500_tickers, Except.map]

/-- C5 amended witness. -/
theorem get_sp500_failure_aborts_witness :
    get_sp500_tickers sourceFailEnv.sp500Fetch = Except.error () ∧
    runMain sourceFailEnv (("2024-01-02").data) =
      Except.error PyError.uncaught :=
  get_sp500_failure_aborts sourceFailEnv (("2024-01-02").data) rfl

/-! ## C6: failure to fetch a headline -/

/-- Per-ticker data where the news call raises but the price bar is fine. -/
def newsFailData : TickerData :=
  { newsFeed := .error ()
    dailyAggs := .ok (some [{ «open» := some 100, close := some 110 }])
    details := .ok (some (("Aaa Corp").data)) }

/-- C6 counterexample: a ticker whose headline fetch fails is dropped
entirely by the candidate loop — no row with an empty note appears — even
though its percentage change was computable. -/
theorem headline_failure_cex :
    latest_earnings_headline newsFailData.newsFeed = none ∧
    safe_daily_change_pct newsFailData.dailyAggs = some 10 ∧
    buildMatches (fun _ => newsFailData) [("AAA").data] = [] := by
  refine ⟨rfl, ?_, rfl⟩
  have h := safe_daily_change_pct_spec_witness.1
  rw [show ((110 : ℚ) - 100) / 100 * 100 = 10 by norm_num] at h
  exact h

/-- C6 amended: headline failure (a raised news call or no keyword-matching
item) causes the ticker to be skipped entirely, not kept with an empty
note; processing continues with the remaining tickers, and every row that
does reach the report has a non-empty note. -/
theorem headline_failure_skips_ticker (env : PyStr → TickerData) (t : PyStr)
    (ts : List PyStr)
    (h : latest_earnings_headline (env t).newsFeed = none) :
    buildMatches env (t :: ts) = buildMatches env ts ∧
    (∀ ts' : List PyStr, ∀ r ∈ selectRows (buildMatches env ts'),
      r.note ≠ []) := by
  constructor
  · rw [buildMatches]
    simp only [h]
  · intro ts' r hr
    obtain ⟨t', _, headline, chg, _, hne, _, _, _, hnote⟩ :=
      mem_buildMatches (mem_selectRows hr)
    rw [hnote]
    exact hne

/-- C6 amended witness. -/
theorem headline_failure_skips_ticker_witness :
    buildMatches (fun _ => newsFailData) [("AAA").data] =
      buildMatches (fun _ => newsFailData) [] :=
  (headline_failure_skips_ticker (fun _ => newsFailData) (("AAA").data) []
    rfl).1

/-! ## C7: the credential gate -/

/-- Environment whose constituent fetch succeeds with an empty table. -/
def emptyOkEnv : WorldEnv :=
  { sp500Fetch := .ok []
    perTicker := fun _ =>
      { newsFeed := .error (), dailyAggs := .error (), details := .error () } }

/-- C7 counterexample: with the credential present a report is still not
always produced — a failing candidate-source call aborts the run with no
output written. -/
theorem api_key_present_no_report_cex :
    checkApiKey (some (("K").data)) = Except.ok (("K").data) ∧
    runProgram (some (("K").data)) sourceFailEnv (("2024-01-02").data) =
      Except.error PyError.uncaught := by
  constructor <;> rfl

/-- C7 amended: a missing (or blank) `POLYGON_API_KEY` aborts the run at
startup with the descriptive error and no output; with a credential
present, a report (possibly with zero rows) is produced provided the
candidate-source fetch succeeds. -/
theorem api_key_gate :
    (∀ (env : WorldEnv) (d : PyStr),
        runProgram none env d =
          Except.error (PyError.missingKey
            (("Missing POLYGON_API_KEY GitHub secret").data))) ∧
    (∀ (env : WorldEnv) (d : PyStr) (k : PyStr), pyStrip k = [] →
        runProgram (some k) env d =
          Except.error (PyError.missingKey
            (("Missing POLYGON_API_KEY GitHub secret").data))) ∧
    (∀ (env : WorldEnv) (d : PyStr) (k : PyStr) (ts : List PyStr),
        pyStrip k ≠ [] → env.sp500Fetch = Except.ok ts →
        ∃ out : Outputs, runProgram (some k) env d = Except.ok out) := by
  refine ⟨fun env d => rfl, ?_, ?_⟩
  · intro env d k hk
    simp [runProgram, checkApiKey, hk]
  · intro env d k ts hk hfetch
    refine ⟨Outputs.mk
      (render_html (selectRows (buildMatches env.perTicker (ts.map cleanTicker))) d)
      (render_html (selectRows (buildMatches env.perTicker (ts.map cleanTicker))) d), ?_⟩
    simp [runProgram, checkApiKey, hk, runMain, hfetch, get_sp500_tickers,
      Except.map]

/-- C7 amended witness: blank key aborts; present key with a successful
(empty) fetch produces a report. -/
theorem api_key_gate_witness :
    (runProgram (some ((" ").data)) sourceFailEnv (("2024-01-02").data) =
      Except.error (PyError.missingKey
        (("Missing POLYGON_API_KEY GitHub secret").data))) ∧
    (∃ out : Outputs,
      runProgram (some (("K").data)) emptyOkEnv (("2024-01-02").data) =
        Except.ok out) :=
  ⟨api_key_gate.2.1 sourceFailEnv (("2024-01-02").data) ((" ").data)
      (by decide),
    api_key_gate.2.2 emptyOkEnv (("2024-01-02").data) (("K").data) []
      (by decide) rfl⟩

/-! ## C8: normalisation of the scraped ticker symbols -/

theorem toNat_ofNat_valid {n : Nat} (h : n < 55296) :
    (Char.ofNat n).toNat = n := by
  rw [Char.ofNat, dif_pos (Or.inl h : n.isValidChar)]
  rfl

theorem toUpper_not_lowercase (c : Char) :
    ¬ ((Char.toUpper c).toNat ≥ 97 ∧ (Char.toUpper c).toNat ≤ 122) := by
  simp only [Char.toUpper]
  by_cases h : c.toNat ≥ 97 ∧ c.toNat ≤ 122
  · rw [if_pos h, toNat_ofNat_valid (by omega)]
    omega
  · rw [if_neg h]
    omega

theorem not_lower_toUpper_eq {d : Char}
    (h : ¬ (d.toNat ≥ 97 ∧ d.toNat ≤ 122)) : Char.toUpper d = d := by
  simp only [Char.toUpper]
  rw [if_neg h]

theorem toUpper_toUpper (c : Char) :
    Char.toUpper (Char.toUpper c) = Char.toUpper c :=
  not_lower_toUpper_eq (toUpper_not_lowercase c)

/-- C8 counterexample: `get_sp500_tickers` performs no deduplication — two
distinct source symbols that normalise to the same ticker yield a duplicate
entry. -/
theorem get_sp500_dedup_cex :
    get_sp500_tickers (.ok [("BRK.B").data, ("BRK-B").data]) =
      .ok [("BRK-B").data, ("BRK-B").data] ∧
    ¬ ([("BRK-B").data, ("BRK-B").data] : List PyStr).Nodup := by
  constructor
  · rfl
  · decide

/-- C8 amended: `get_sp500_tickers` maps each fetched symbol, in order, to
its normalised form — dot-free and fixed under uppercasing — but does not
deduplicate the result. -/
theorem get_sp500_normalises (syms : List PyStr) :
    get_sp500_tickers (.ok syms) = .ok (syms.map cleanTicker) ∧
    ∀ s ∈ syms.map cleanTicker,
      (∀ ch ∈ s, ch ≠ '.') ∧ pyUpper s = s := by
  refine ⟨rfl, ?_⟩
  intro s hs
  obtain ⟨t, _, rfl⟩ := List.mem_map.mp hs
  constructor
  · intro ch hch
    obtain ⟨c, _, rfl⟩ := List.mem_map.mp hch
    by_cases hc : c = '.'
    · simp [hc]
    · simp [hc]
  · show pyUpper (cleanTicker t) = cleanTicker t
    simp only [pyUpper, cleanTicker, List.map_map]
    apply List.map_congr_left
    intro c _
    simp only [Function.comp_apply]
    by_cases hc : Char.toUpper c = '.'
    · rw [hc]
      decide
    · rw [if_neg hc]
      exact toUpper_toUpper c

/-- C8 amended witness. -/
theorem get_sp500_normalises_witness :
    (∀ ch ∈ cleanTicker (("brk.b").data), ch ≠ '.') ∧
    pyUpper (cleanTicker (("brk.b").data)) = cleanTicker (("brk.b").data) :=
  (get_sp500_normalises [("brk.b").data]).2 _ (by simp)

/-! ## C9: deterministic rendering, identical output files -/

/-- C9: `render_html` is a pure function — identical (rows, date) inputs
give identical output — and every successful run carries byte-identical
HTML in its two output files. -/
theorem render_html_deterministic :
    (∀ (rows : List Row) (d : PyStr),
        render_html rows d = render_html rows d) ∧
    (∀ (k : Option PyStr) (env : WorldEnv) (d : PyStr) (out : Outputs),
        runProgram k env d = Except.ok out →
        out.indexHtml = out.archiveHtml) := by
  refine ⟨fun _ _ => rfl, ?_⟩
  intro k env d out h
  unfold runProgram at h
  cases hk : checkApiKey k with
  | error m =>
    simp only [hk] at h
    exact Except.noConfusion h
  | ok key =>
    simp only [hk] at h
    unfold runMain at h
    cases hf : get_sp500_tickers env.sp500Fetch with
    | error e =>
      simp only [hf] at h
      exact Except.noConfusion h
    | ok ts =>
      simp only [hf, Except.ok.injEq] at h
      rw [← h]

/-- Outputs of the empty-table run used as the C9 witness. -/
def emptyRunOutputs : Outputs :=
  Outputs.mk
    (render_html (selectRows (buildMatches emptyOkEnv.perTicker []))
      (("2024-01-02").data))
    (render_html (selectRows (buildMatches emptyOkEnv.perTicker []))
      (("2024-01-02").data))

/-- C9 witness: a concrete successful run, whose two files agree. -/
theorem render_html_deterministic_witness :
    runProgram (some (("K").data)) emptyOkEnv (("2024-01-02").data) =
      Except.ok emptyRunOutputs ∧
    emptyRunOutputs.indexHtml = emptyRunOutputs.archiveHtml := by
  have h : runProgram (some (("K").data)) emptyOkEnv (("2024-01-02").data) =
      Except.ok emptyRunOutputs := rfl
  exact ⟨h, render_html_deterministic.2 _ _ _ _ h⟩

/-! ## C10: only the two most recent news items are inspected -/

theorem firstEarningsTitle_some {items : List NewsItem} {t : PyStr}
    (h : firstEarningsTitle items = some t) :
    ∃ item ∈ items, item.title.getD [] = t ∧
      looks_like_earnings t = true := by
  induction items with
  | nil => simp [firstEarningsTitle] at h
  | cons i rest ih =>
    simp only [firstEarningsTitle] at h
    by_cases hm : looks_like_earnings (i.title.getD []) = true
    · rw [if_pos hm] at h
      injection h with h
      subst h
      exact ⟨i, List.mem_cons_self _ _, rfl, hm⟩
    · rw [if_neg hm] at h
      obtain ⟨item, hmem, hrest⟩ := ih h
      exact ⟨item, List.mem_cons_of_mem _ hmem, hrest⟩

theorem firstEarningsTitle_none {items : List NewsItem}
    (h : ∀ item ∈ items, looks_like_earnings (item.title.getD []) = false) :
    firstEarningsTitle items = none := by
  induction items with
  | nil => rfl
  | cons i rest ih =>
    simp only [firstEarningsTitle]
    rw [if_neg (by simp [h i (List.mem_cons_self _ _)])]
    exact ih (fun item hm => h item (List.mem_cons_of_mem _ hm))

/-- C10: `latest_earnings_headline` inspects only the `NEWS_PER_TICKER`
(= 2) most recent items: a returned title is among the two most recent and
matches the filter; if neither of the two most recent matches — even when an
older item would — the result is `None`, and such a ticker contributes no
row to the report. -/
theorem latest_earnings_headline_window_spec :
    (∀ e, latest_earnings_headline (.error e) = none) ∧
    (∀ (feed : List NewsItem) (t : PyStr),
        latest_earnings_headline (.ok feed) = some t →
        ∃ item ∈ feed.take NEWS_PER_TICKER,
          item.title.getD [] = t ∧ looks_like_earnings t = true) ∧
    (∀ feed : List NewsItem,
        (∀ item ∈ feed.take NEWS_PER_TICKER,
            looks_like_earnings (item.title.getD []) = false) →
        latest_earnings_headline (.ok feed) = none) ∧
    (∀ (env : PyStr → TickerData) (tickers : List PyStr) (t : PyStr),
        latest_earnings_headline (env t).newsFeed = none →
        ∀ r ∈ selectRows (buildMatches env tickers), r.ticker ≠ t) := by
  refine ⟨fun _ => rfl, ?_, ?_, ?_⟩
  · intro feed t h
    exact firstEarningsTitle_some h
  · intro feed h
    exact firstEarningsTitle_none h
  · intro env tickers t hnone r hr hticker
    obtain ⟨t', _, headline, chg, hl, _, _, hrt, _, _⟩ :=
      mem_buildMatches (mem_selectRows hr)
    rw [hticker] at hrt
    subst hrt
    rw [hnone] at hl
    exact Option.noConfusion hl

/-- News feed for the C10 witness: the keyword-matching headline is the
third most recent item, hidden behind two non-matching ones. -/
def staleNewsFeed : List NewsItem :=
  [{ title := some (("Stock rises").data) },
   { title := some (("CEO interviewed").data) },
   { title := some (("Company Reports Q2 Earnings").data) }]

/-- C10 witness: an older matching headline is invisible behind two
non-matching recent items. -/
theorem latest_earnings_headline_window_spec_witness :
    latest_earnings_headline (.ok staleNewsFeed) = none ∧
    looks_like_earnings (("Company Reports Q2 Earnings").data) = true :=
  ⟨latest_earnings_headline_window_spec.2.2.1 staleNewsFeed (by decide),
    by decide⟩
